import Mathlib

/-!
Shallow embedding of the LibFS inode file system (src/Project4/LibFS.c) and
verification of its specification claims.

The block device is modelled as a total function from sector index to byte
index to byte value.  Sectors used as bitmaps and file data are kept at byte
level; the inode table and directory-entry sectors are kept as typed views
(the C code always accesses them through `inode_t` / `dirent_t` overlays).
C `int` values that can matter for signedness are `Int`; array/sector indices
that the claims only exercise at nonnegative values are `Nat`.
-/

set_option autoImplicit false
set_option maxRecDepth 8000

namespace LibFS

/-- Modelled from the spec: the geometry constants come from LibDisk.h and
LibFS.h, which are not part of the repository snapshot; the spec (section 8)
fixes SECTOR_SIZE = 512. -/
def SECTOR_SIZE : Nat := 512

/-- Modelled from the spec: TOTAL_SECTORS = 2048 (spec section 8). -/
def TOTAL_SECTORS : Nat := 2048

/-- Modelled from the spec: MAX_FILES = 64 (spec section 8). -/
def MAX_FILES : Nat := 64

/-- Modelled from the spec: MAX_SECTORS_PER_FILE = 16 (spec section 8). -/
def MAX_SECTORS_PER_FILE : Nat := 16

/-- LibFS.c: max number of open files is 256. -/
def MAX_OPEN_FILES : Nat := 256

/-- LibFS.c: the inode bitmap starts at sector 1. -/
def INODE_BITMAP_START_SECTOR : Nat := 1

/-- LibFS.c: INODE_BITMAP_SIZE = (MAX_FILES + 7) / 8 (a byte count). -/
def INODE_BITMAP_SIZE : Nat := (MAX_FILES + 7) / 8

/-- LibFS.c: sectors holding the inode bitmap. -/
def INODE_BITMAP_SECTORS : Nat := (INODE_BITMAP_SIZE + SECTOR_SIZE - 1) / SECTOR_SIZE

/-- LibFS.c: the sector bitmap starts right after the inode bitmap. -/
def SECTOR_BITMAP_START_SECTOR : Nat := INODE_BITMAP_START_SECTOR + INODE_BITMAP_SECTORS

/-- LibFS.c: SECTOR_BITMAP_SIZE = (TOTAL_SECTORS + 7) / 8 (a byte count). -/
def SECTOR_BITMAP_SIZE : Nat := (TOTAL_SECTORS + 7) / 8

/-- LibFS.c: sectors holding the sector bitmap. -/
def SECTOR_BITMAP_SECTORS : Nat := (SECTOR_BITMAP_SIZE + SECTOR_SIZE - 1) / SECTOR_SIZE

/-- LibFS.c: the inode table starts right after the sector bitmap. -/
def INODE_TABLE_START_SECTOR : Nat := SECTOR_BITMAP_START_SECTOR + SECTOR_BITMAP_SECTORS

/-- sizeof(inode_t) = 2 * sizeof(int) + MAX_SECTORS_PER_FILE * sizeof(int) = 72. -/
def SIZEOF_INODE : Nat := 8 + MAX_SECTORS_PER_FILE * 4

/-- LibFS.c: INODES_PER_SECTOR = SECTOR_SIZE / sizeof(inode_t) = 7. -/
def INODES_PER_SECTOR : Nat := SECTOR_SIZE / SIZEOF_INODE

/-- LibFS.c: sectors holding the inode table. -/
def INODE_TABLE_SECTORS : Nat := (MAX_FILES + INODES_PER_SECTOR - 1) / INODES_PER_SECTOR

/-- LibFS.c: first data sector. -/
def DATABLOCK_START_SECTOR : Nat := INODE_TABLE_START_SECTOR + INODE_TABLE_SECTORS

/-- sizeof(dirent_t) = MAX_NAME + sizeof(int) = 20. -/
def SIZEOF_DIRENT : Nat := 20

/-- LibFS.c: DIRENTS_PER_SECTOR = SECTOR_SIZE / sizeof(dirent_t) = 25. -/
def DIRENTS_PER_SECTOR : Nat := SECTOR_SIZE / SIZEOF_DIRENT

/-- Modelled from the spec: the E_* error codes are declared in LibFS.h, which
is not in the repository snapshot; the spec only requires them to be distinct
error kinds, so they are modelled as distinct integers. -/
def E_GENERAL : Int := 1

def E_CREATE : Int := 2

def E_NO_SUCH_FILE : Int := 3

def E_TOO_MANY_OPEN_FILES : Int := 4

def E_BAD_FD : Int := 5

def E_NO_SPACE : Int := 6

def E_FILE_TOO_BIG : Int := 7

def E_SEEK_OUT_OF_BOUNDS : Int := 8

def E_FILE_IN_USE : Int := 9

def E_NO_SUCH_DIR : Int := 10

def E_DIR_NOT_EMPTY : Int := 11

def E_ROOT_DIR : Int := 12

def E_BUFFER_TOO_SMALL : Int := 13

/-- The simulated block device: sector index, then byte offset, to byte value. -/
def Disk : Type := Nat → Nat → Nat

/-- Disk_Write: replace one sector's contents. -/
def diskWrite (d : Disk) (s : Nat) (buf : Nat → Nat) : Disk :=
  fun t => if t = s then buf else d t

/-- Write the same buffer to `n` consecutive sectors starting at `s`
(the shape of the two sector-filling for loops in bitmap_init). -/
def writeRange (d : Disk) (s n : Nat) (buf : Nat → Nat) : Disk :=
  match n with
  | 0 => d
  | m + 1 => writeRange (diskWrite d s buf) (s + 1) m buf

/-- memcpy over byte buffers: copy `n` bytes of `src` starting at `soff`
into `dst` starting at `doff`. -/
def memcpyF (dst : Nat → Nat) (doff : Nat) (src : Nat → Nat) (soff n : Nat) :
    Nat → Nat :=
  fun i => if doff ≤ i ∧ i < doff + n then src (soff + (i - doff)) else dst i

/-- LibFS.c sgn (C int semantics). -/
def sgn (n : Int) : Int :=
  if n = 0 then 0 else if n > 0 then 1 else -1

/-- LibFS.c bitmap_init: zero a run of `num` sectors starting at `start`
except that the first `nbits` bits are set to one.  Faithful to the C code:
`a` all-ones sectors, one "partial" sector, then `c = num - a - sgn b`
further sectors written from the buffer after its first `b` bytes were
zeroed (the byte at index `b` keeps the value `bits[r]` from the partial
write). -/
def bitmap_init (d : Disk) (start num nbits : Nat) : Disk :=
  let a := nbits / 8 / SECTOR_SIZE
  let b := nbits / 8 % SECTOR_SIZE
  let onesBuf : Nat → Nat := fun _ => 255
  let d1 := writeRange d start a onesBuf
  let r := nbits % 8
  let bitsTab : List Nat := [0x0, 0x80, 0xC0, 0xE0, 0xF0, 0xF8, 0xFC, 0xFE]
  let partialBuf : Nat → Nat :=
    fun i => if i < b then 255 else if i = b then bitsTab.getD r 0 else 0
  let d2 := diskWrite d1 (start + a) partialBuf
  let zeroBuf : Nat → Nat := fun i => if i < b then 0 else partialBuf i
  let c : Int := (num : Int) - (a : Int) - sgn (b : Int)
  writeRange d2 (start + a + 1) c.toNat zeroBuf

/-- The C table `bits[8] = {0x80, 0x40, ..., 0x01}` of bitmap_first_unused. -/
def bits_fu (k : Nat) : Nat := [128, 64, 32, 16, 8, 4, 2, 1].getD k 0

/-- Inner k-loop of bitmap_first_unused: first bit index (from `k`, `fuel`
iterations left) whose mask is clear in byte `b`. -/
def fzByte (b : Nat) : Nat → Nat → Option Nat
  | _, 0 => none
  | k, fuel + 1 => if b &&& bits_fu k = 0 then some k else fzByte b (k + 1) fuel

/-- Middle j-loop of bitmap_first_unused: scan a sector's bytes from `j`
(`fuel` iterations left) for a byte below 0xff holding a clear bit. -/
def fzSector (s : Nat → Nat) : Nat → Nat → Option (Nat × Nat)
  | _, 0 => none
  | j, fuel + 1 =>
    if s j < 255 then
      match fzByte (s j) 0 8 with
      | some k => some (j, k)
      | none => fzSector s (j + 1) fuel
    else fzSector s (j + 1) fuel

/-- Outer sector loop of bitmap_first_unused, sector `i` next, `fuel`
sectors left to scan. On a hit the bit is set and the sector written back
before the capacity comparison decides the return value. -/
def bfu_go (d : Disk) (start nbits : Nat) : Nat → Nat → Int × Disk
  | _, 0 => (-1, d)
  | i, fuel + 1 =>
    match fzSector (d (start + i)) 0 SECTOR_SIZE with
    | some (j, k) =>
      let buf := d (start + i)
      let buf1 : Nat → Nat := fun m => if m = j then buf j ||| bits_fu k else buf m
      let d1 := diskWrite d (start + i) buf1
      let pos := (i * SECTOR_SIZE + j) * 8 + k
      (if pos < nbits then (pos : Int) else -1, d1)
    | none => bfu_go d start nbits (i + 1) fuel

/-- LibFS.c bitmap_first_unused: find the first clear bit of the bitmap in
sectors `[start, start+num)`, set it, write the sector back, and return its
position, or -1 when the position is at or past `nbits` (or no clear bit
exists). -/
def bitmap_first_unused (d : Disk) (start num nbits : Nat) : Int × Disk :=
  bfu_go d start nbits 0 num

/-- LibFS.c bitmap_reset: clear bit `ibit` of the bitmap starting at sector
`start` (note the C code addresses the sector as `start + ibit / SECTOR_SIZE`
and the byte as `ibit % SECTOR_SIZE / 8`).  `num` is accepted and ignored,
as in the C code. -/
def bitmap_reset (d : Disk) (start num ibit : Nat) : Disk :=
  let _ := num
  let sector := start + ibit / SECTOR_SIZE
  let byte := ibit % SECTOR_SIZE / 8
  let bit := ibit % 8
  let buf := d sector
  let mask := 255 ^^^ (128 >>> bit)
  diskWrite d sector (fun m => if m = byte then buf m &&& mask else buf m)

/-- Bit `pos` of the bitmap laid out from sector `start` in the layout that
bitmap_init and bitmap_first_unused use: 4096 bits per sector,
most-significant bit of a byte first. -/
def bmBit (d : Disk) (start pos : Nat) : Bool :=
  d (start + pos / (SECTOR_SIZE * 8)) (pos % (SECTOR_SIZE * 8) / 8) &&& bits_fu (pos % 8) != 0

/-- Concrete disk for the bitmap_init counterexample: every byte is 7. -/
def c6_disk : Disk := fun _ _ => 7

/-- C6: bitmap_init(start = 5, num = 2, presetBits = 1) on a disk of 7-bytes.
The claim requires every bit of the region after the first to be 0 and no
sector outside [5, 7) to be written.  The code instead leaves the byte
`bits[r] = 0x80` at offset 0 of the buffer used for the "all zero" sectors,
so sector 6 (inside the region) gets bit 4096 set, and it also writes that
buffer to sector 7 = start + num, outside the region. -/
theorem c6_bitmap_init_bug :
    bitmap_init c6_disk 5 2 1 6 0 = 128 ∧
    bmBit (bitmap_init c6_disk 5 2 1) 5 4096 = true ∧
    bitmap_init c6_disk 5 2 1 7 0 = 128 ∧
    c6_disk 7 0 = 7 := by
  decide

/-- inode_t: size (bytes for a file, entry slots for a directory), type
(0 file, 1 directory), direct data-block list.  The C array has
MAX_SECTORS_PER_FILE entries; it is modelled as a total function, indexed as
the code indexes it. -/
structure Inode where
  size : Int
  type : Int
  data : Nat → Nat

/-- dirent_t: file name and inode number of one directory entry slot. -/
structure Dirent where
  fname : String
  inode : Int

/-- open_file_t: one open-file-table entry (inode 0 means the entry is
free), the cached size and the read/write cursor. -/
structure OpenFile where
  inode : Int
  size : Int
  pos : Int

/-- The file-system state: the byte-level disk (superblock, bitmaps and data
sectors), typed views of the inode table and of the directory-entry sectors
(the C code only ever accesses those sectors through inode_t / dirent_t
overlays at fixed offsets), the open-file table and osErrno. -/
structure FSState where
  disk : Disk
  inodes : Nat → Inode
  direntSecs : Nat → Nat → Dirent
  open_files : Nat → OpenFile
  osErrno : Int

/-- Point update of a function map. -/
def upd {α : Type} (f : Nat → α) (k : Nat) (v : α) : Nat → α :=
  fun x => if x = k then v else f x

/-- Set osErrno. -/
def setErr (st : FSState) (e : Int) : FSState := { st with osErrno := e }

/-- Loop of LibFS.c is_file_open: scan the open-file table for an entry
whose inode equals the argument. -/
def ifo_go (st : FSState) (inode : Int) : Nat → Nat → Bool
  | _, 0 => false
  | i, fuel + 1 =>
    if (st.open_files i).inode = inode then true else ifo_go st inode (i + 1) fuel

/-- LibFS.c is_file_open: true if some open-file-table entry's inode field
equals `inode`.  (Note File_Read/File_Write/File_Seek pass a file
descriptor to this function.) -/
def is_file_open (st : FSState) (inode : Int) : Bool :=
  ifo_go st inode 0 MAX_OPEN_FILES

/-- File_Read's copy loop.  State: output buffer, bytes still wanted
(`left`), offset inside the current sector (`cur`), index into the file's
block list (`curr_sec`), bytes copied so far (`out_pos`) and the file
cursor (`pos`).  As in the C code, every iteration copies to offset 0 of
the caller's buffer: memcpy(buffer, data_buf + curr_pos_in_sec, to_read). -/
def fr_loop (st : FSState) (child : Inode) (fsize : Int) :
    (Nat → Nat) → Int → Int → Int → Int → Int → Nat → (Nat → Nat) × Int × Int
  | buffer, _, _, _, out_pos, pos, 0 => (buffer, out_pos, pos)
  | buffer, left, cur, curr_sec, out_pos, pos, fuel + 1 =>
    if left > 0 ∧ pos < fsize then
      let data_buf := st.disk (child.data curr_sec.toNat)
      let to_read : Int :=
        if left + cur > (SECTOR_SIZE : Int) then (SECTOR_SIZE : Int) - cur else left
      let buffer1 := memcpyF buffer 0 data_buf cur.toNat to_read.toNat
      let pos1 := pos + to_read
      let pos2 := if pos1 > fsize then fsize else pos1
      fr_loop st child fsize buffer1 (left - to_read) 0 (curr_sec + 1)
        (out_pos + to_read) pos2 fuel
    else (buffer, out_pos, pos)

/-- LibFS.c File_Read: read up to `size` bytes at the cursor of the file of
descriptor `fd` into `buffer`; returns the byte count actually read
(and the state and the caller's buffer). -/
def File_Read (st : FSState) (fd : Nat) (buffer : Nat → Nat) (size : Int) :
    Int × FSState × (Nat → Nat) :=
  if is_file_open st (fd : Int) then
    let f := st.open_files fd
    if f.pos = f.size then (0, st, buffer)
    else
      let child := st.inodes f.inode.toNat
      let r := fr_loop st child f.size buffer size (f.pos % (SECTOR_SIZE : Int))
        (f.pos / (SECTOR_SIZE : Int)) 0 f.pos (size.toNat + 1)
      (r.2.1, { st with open_files := upd st.open_files fd { f with pos := r.2.2 } }, r.1)
  else (-1, setErr st E_BAD_FD, buffer)

/-- File_Write's block-allocation loop: allocate the needed data sectors
one at a time from the sector bitmap, recording them in the in-memory inode
record; `none` signals the E_NO_SPACE path (the bitmap mutations made so
far are kept, the inode record is dropped, as in the C code). -/
def fw_alloc (d : Disk) (child : Inode) : Int → Nat → Disk × Option Inode
  | _, 0 => (d, some child)
  | i, fuel + 1 =>
    let r := bitmap_first_unused d SECTOR_BITMAP_START_SECTOR SECTOR_BITMAP_SECTORS
      SECTOR_BITMAP_SIZE
    if r.1 < 0 then (r.2, none)
    else fw_alloc r.2 { child with data := upd child.data i.toNat r.1.toNat } (i + 1) fuel

/-- File_Write's copy loop.  State: disk, bytes still to write (`left`),
offset inside the current sector (`cur`), block-list index (`curr_sec`),
offset into the caller's buffer (`in_pos`), cursor (`pos`).  Each iteration
reads the sector, overlays the bytes and writes it back. -/
def fw_loop (child : Inode) (buffer : Nat → Nat) (allocated : Int) :
    Disk → Int → Int → Int → Int → Int → Nat → Disk × Int × Int
  | d, left, _, _, _, pos, 0 => (d, left, pos)
  | d, left, cur, curr_sec, in_pos, pos, fuel + 1 =>
    if left > 0 ∧ curr_sec < allocated then
      let sec := child.data curr_sec.toNat
      let data_buf := d sec
      let to_write : Int :=
        if left > (SECTOR_SIZE : Int) then (SECTOR_SIZE : Int) - cur else left - cur
      let data_buf1 := memcpyF data_buf cur.toNat buffer in_pos.toNat to_write.toNat
      let d1 := diskWrite d sec data_buf1
      fw_loop child buffer allocated d1 (left - to_write) 0 (curr_sec + 1)
        (in_pos + to_write) (pos + to_write) fuel
    else (d, left, pos)

/-- LibFS.c File_Write: write `size` bytes of `buffer` at the cursor of the
file of descriptor `fd`.  Faithful to the code: the bad-descriptor check
calls is_file_open with the descriptor, the inode's size is first grown by
`size` and written out, then the open-file entry's cached size is set to
pos + size (the later in-memory `child->size = f->size` assignment is never
written to disk and is dropped here). -/
def File_Write (st : FSState) (fd : Nat) (buffer : Nat → Nat) (size : Int) :
    Int × FSState :=
  if is_file_open st (fd : Int) then
    let f := st.open_files fd
    if f.pos + size > (MAX_SECTORS_PER_FILE : Int) * (SECTOR_SIZE : Int) then
      (-1, setErr st E_FILE_TOO_BIG)
    else
      let child := st.inodes f.inode.toNat
      let allocated_secs := (f.size + (SECTOR_SIZE : Int) - 1) / (SECTOR_SIZE : Int)
      let needed_secs :=
        (size - (allocated_secs * (SECTOR_SIZE : Int) - f.pos) + (SECTOR_SIZE : Int) - 1) /
          (SECTOR_SIZE : Int)
      let ar := fw_alloc st.disk child allocated_secs needed_secs.toNat
      match ar.2 with
      | none => (-1, setErr { st with disk := ar.1 } E_NO_SPACE)
      | some child1 =>
        let child2 := { child1 with size := child1.size + size }
        let st1 := { st with disk := ar.1,
                             inodes := upd st.inodes f.inode.toNat child2 }
        let allocated2 := allocated_secs + needed_secs
        let r := fw_loop child2 buffer allocated2 st1.disk size
          (f.pos % (SECTOR_SIZE : Int)) (f.pos / (SECTOR_SIZE : Int)) 0 f.pos
          (size.toNat + 1)
        (size - r.2.1,
          { st1 with disk := r.1,
                     open_files := upd st.open_files fd
                       { f with size := f.pos + size, pos := r.2.2 } })
  else (-1, setErr st E_BAD_FD)

/-- LibFS.c File_Seek: move the cursor of descriptor `fd` to `offset`
(0 <= offset <= cached size). -/
def File_Seek (st : FSState) (fd : Nat) (offset : Int) : Int × FSState :=
  if is_file_open st (fd : Int) then
    let f := st.open_files fd
    if offset > f.size ∨ offset < 0 then (-1, setErr st E_SEEK_OUT_OF_BOUNDS)
    else (0, { st with open_files := upd st.open_files fd { f with pos := offset } })
  else (-1, setErr st E_BAD_FD)

/-- LibFS.c File_Close: free the table entry of descriptor `fd` by zeroing
its inode field; touches nothing else.  (The C bound check accepts
fd = MAX_OPEN_FILES; kept as in the code.) -/
def File_Close (st : FSState) (fd : Nat) : Int × FSState :=
  if fd > MAX_OPEN_FILES then (-1, setErr st E_BAD_FD)
  else if (st.open_files fd).inode ≤ 0 then (-1, setErr st E_BAD_FD)
  else
    (0, { st with
          open_files := upd st.open_files fd { st.open_files fd with inode := 0 } })

/-- Zero one directory-entry slot in a sector buffer (the
memset(cur_dir_ent, 0, sizeof *cur_dir_ent) of remove_inode). -/
def zeroSlot (buf : Nat → Dirent) (j : Nat) : Nat → Dirent :=
  upd buf j ⟨"", 0⟩

/-- Slot scan of remove_inode: first slot index (from `d`, `fuel` slots
left) whose inode field equals `ci`.  The full-sector scan uses
fuel = DIRENTS_PER_SECTOR, the trailing-sector scan uses
fuel = parent->size % DIRENTS_PER_SECTOR. -/
def scanSlots (buf : Nat → Dirent) (ci : Nat) : Nat → Nat → Option Nat
  | _, 0 => none
  | d, fuel + 1 =>
    if (buf d).inode = (ci : Int) then some d else scanSlots buf ci (d + 1) fuel

/-- The full-sector loop of remove_inode, faithful to the C code including
its inverted guard: each iteration first executes `if (!found) break;`, so
with the initial found = 0 the loop exits before reading any sector.  When
a slot matches, the entry is zeroed in the buffer, found is set to the
sector number, and the loop moves on to the next sector (re-reading into
the same buffer). -/
def ri_scan_full (st : FSState) (parent : Inode) (ci : Nat) :
    Nat → (Nat → Dirent) → Nat → Nat → Nat × (Nat → Dirent)
  | found, buf, _, 0 => (found, buf)
  | found, buf, dir_sec, fuel + 1 =>
    if found = 0 then (found, buf)
    else
      let secno := parent.data dir_sec
      let buf1 := st.direntSecs secno
      match scanSlots buf1 ci 0 DIRENTS_PER_SECTOR with
      | some d => ri_scan_full st parent ci secno (zeroSlot buf1 d) (dir_sec + 1) fuel
      | none => ri_scan_full st parent ci found buf1 (dir_sec + 1) fuel

/-- remove_inode after the child/parent checks: scan the parent's full
directory-entry sectors, then the partial trailing sector, for an entry
whose inode is `child_inode`; zero it, clear the child's inode-bitmap bit
and write the modified sector back; -1 when nothing matched. -/
def remove_inode_core (st : FSState) (parent_inode child_inode : Nat) :
    Int × FSState :=
  let parent := st.inodes parent_inode
  if parent.type ≠ 1 then (-3, st)
  else
    let full_dirent_secs := parent.size.tdiv (DIRENTS_PER_SECTOR : Int)
    let partial_dirent_sec :=
      sgn (parent.size - full_dirent_secs * (DIRENTS_PER_SECTOR : Int))
    let r1 := ri_scan_full st parent child_inode 0 (fun _ => ⟨"", 0⟩) 0
      full_dirent_secs.toNat
    let r2 :=
      if r1.1 = 0 ∧ partial_dirent_sec ≠ 0 then
        let bufP := st.direntSecs (parent.data full_dirent_secs.toNat)
        match scanSlots bufP child_inode 0
          (parent.size.tmod (DIRENTS_PER_SECTOR : Int)).toNat with
        | some j => (parent.data full_dirent_secs.toNat, zeroSlot bufP j)
        | none => (0, bufP)
      else r1
    if r2.1 = 0 then (-1, st)
    else
      let d1 := bitmap_reset st.disk INODE_BITMAP_START_SECTOR INODE_BITMAP_SECTORS
        child_inode
      (0, { st with disk := d1, direntSecs := upd st.direntSecs r2.1 r2.2 })

/-- LibFS.c remove_inode: type check against the expected kind, emptiness
checks (a directory child must have size 0, a file child must have size 0),
then the directory-entry scan of remove_inode_core. -/
def remove_inode (st : FSState) (type : Int) (parent_inode child_inode : Nat) :
    Int × FSState :=
  let child := st.inodes child_inode
  if child.type ≠ type then (-3, st)
  else if child.type = 1 then
    if child.size > 0 then (-2, st)
    else remove_inode_core st parent_inode child_inode
  else
    if child.size > 0 then (-1, st)
    else remove_inode_core st parent_inode child_inode

/-- File_Unlink's block-release loop: for i in [0, child->size) clear the
sector-bitmap bit of child->data[i].  As in the C code the bound is the
*size in bytes*, not the number of allocated sectors. -/
def fu_free_loop (d : Disk) (child : Inode) : Nat → Nat → Disk
  | _, 0 => d
  | i, fuel + 1 =>
    fu_free_loop
      (bitmap_reset d SECTOR_BITMAP_START_SECTOR SECTOR_BITMAP_SECTORS (child.data i))
      child (i + 1) fuel

/-- LibFS.c File_Unlink after follow_path succeeded (the path resolution
prefix and its E_NO_SUCH_FILE case are not embedded; the claim's premise
"an existing file" supplies parent_inode and child_inode): refuse when the
file is open, when it is not a regular file; release its sectors, zero its
size, then remove the directory entry and free the inode. -/
def File_Unlink_body (st : FSState) (parent_inode child_inode : Nat) :
    Int × FSState :=
  if is_file_open st (child_inode : Int) then (-1, setErr st E_FILE_IN_USE)
  else
    let child := st.inodes child_inode
    if child.type ≠ 0 then (-2, st)
    else
      let d1 := fu_free_loop st.disk child 0 child.size.toNat
      let st1 := { st with disk := d1,
                           inodes := upd st.inodes child_inode { child with size := 0 } }
      let r := remove_inode st1 0 parent_inode child_inode
      if r.1 < 0 then (-1, r.2) else (0, r.2)

/-- Shared tail of add_inode's two branches: write the new entry at the
next free slot of the dirent sector, write the sector, then increment the
parent's size and write the parent's inode out. -/
def add_inode_tail (st : FSState) (parent_inode : Nat) (parent : Inode)
    (buf : Nat → Dirent) (file : String) (child_inode : Nat) (group : Int) :
    Int × FSState :=
  let offset := (parent.size - group * (DIRENTS_PER_SECTOR : Int)).toNat
  let buf1 := upd buf offset ⟨file, (child_inode : Int)⟩
  let st1 := { st with direntSecs := upd st.direntSecs (parent.data group.toNat) buf1 }
  (0, { st1 with
        inodes := upd st1.inodes parent_inode { parent with size := parent.size + 1 } })

/-- LibFS.c add_inode: allocate a child inode from the inode bitmap,
zero-initialize it with the requested type, then append a directory entry
to the parent, allocating a fresh dirent sector when the parent's entry
count is an exact multiple of DIRENTS_PER_SECTOR. -/
def add_inode (st : FSState) (type : Int) (parent_inode : Nat) (file : String) :
    Int × FSState :=
  let a := bitmap_first_unused st.disk INODE_BITMAP_START_SECTOR INODE_BITMAP_SECTORS
    INODE_BITMAP_SIZE
  let st1 := { st with disk := a.2 }
  if a.1 < 0 then (-1, st1)
  else
    let child_inode := a.1.toNat
    let child : Inode := ⟨0, type, fun _ => 0⟩
    let st2 := { st1 with inodes := upd st1.inodes child_inode child }
    let parent := st2.inodes parent_inode
    if parent.type ≠ 1 then (-2, st2)
    else
      let group := parent.size.tdiv (DIRENTS_PER_SECTOR : Int)
      if group * (DIRENTS_PER_SECTOR : Int) = parent.size then
        let ns := bitmap_first_unused st2.disk SECTOR_BITMAP_START_SECTOR
          SECTOR_BITMAP_SECTORS SECTOR_BITMAP_SIZE
        let st3 := { st2 with disk := ns.2 }
        if ns.1 < 0 then (-1, st3)
        else
          let parent1 := { parent with data := upd parent.data group.toNat ns.1.toNat }
          add_inode_tail st3 parent_inode parent1 (fun _ => ⟨"", 0⟩) file child_inode group
      else
        add_inode_tail st2 parent_inode parent
          (st2.direntSecs (parent.data group.toNat)) file child_inode group

/-- The C2 scenario: parent directory (inode 0) with 26 entry slots — one
full dirent sector (13) and a one-slot trailing sector (14).  The child to
remove is inode 5, a size-0 file whose entry sits at slot 0 of the *full*
sector 13; the trailing sector holds an unrelated entry. -/
def c2_st : FSState :=
  ⟨fun _ _ => 0,
    fun i =>
      if i = 0 then ⟨26, 1, fun j => if j = 0 then 13 else if j = 1 then 14 else 0⟩
      else ⟨0, 0, fun _ => 0⟩,
    fun s j =>
      if s = 13 then (if j = 0 then ⟨"a", 5⟩ else ⟨"x", 100⟩)
      else if s = 14 then ⟨"z", 200⟩ else ⟨"", 0⟩,
    fun _ => ⟨0, 0, 0⟩, 0⟩

/-- C2: the child's entry is in a full (non-trailing) sector of the parent,
so the claim requires remove_inode to find it, zero it and succeed.  The
code's full-sector loop begins with `if (!found) break;` — inverted, since
found is still 0 — so no full sector is ever scanned; only the one-slot
trailing sector is examined, the entry is not found, and the call fails
with the general NotFound error (-1), leaving the entry intact. -/
theorem c2_remove_inode_full_sector_bug :
    (remove_inode c2_st 0 0 5).1 = -1 ∧
    (c2_st.direntSecs 13 0).inode = 5 ∧
    ((remove_inode c2_st 0 0 5).2.direntSecs 13 0).inode = 5 := by
  decide

/-- The C3 scenario: a freshly formatted volume holding one file /a
(inode 1) of size 2 bytes in data sector 14; root's dirent sector is 13.
Sector bitmap (sector 2): bits 0..12 are the reserved system sectors,
bit 13 root's dirent sector, bit 14 the file's data sector.  Inode bitmap
(sector 1): inodes 0 and 1 in use.  No file is open. -/
def c3_st : FSState :=
  ⟨fun s b =>
      if s = 2 then (if b = 0 then 255 else if b = 1 then 254 else 0)
      else if s = 1 then (if b = 0 then 192 else 0) else 0,
    fun i =>
      if i = 0 then ⟨1, 1, fun j => if j = 0 then 13 else 0⟩
      else if i = 1 then ⟨2, 0, fun j => if j = 0 then 14 else 0⟩
      else ⟨0, 0, fun _ => 0⟩,
    fun s j => if s = 13 ∧ j = 0 then ⟨"a", 1⟩ else ⟨"", 0⟩,
    fun _ => ⟨0, 0, 0⟩, 0⟩

/-- File_Unlink of /a in the C3 scenario. -/
def c3_r : Int × FSState := File_Unlink_body c3_st 0 1

/-- C3: unlinking the 2-byte file must clear exactly the sector-bitmap bit
of its one data sector (14).  The call succeeds and does clear bit 14
(sector 2 byte 1: 0xfe -> 0xfc), zeroes the size, tombstones the entry and
frees inode 1 — but its release loop runs child->size = 2 iterations over
the block list (a byte count used as a sector count), so it also calls
bitmap_reset on data[1] = 0 and clears sector-bitmap bit 0, the
superblock's bit (sector 2 byte 0: 0xff -> 0x7f), an unrelated resource. -/
theorem c3_file_unlink_frees_wrong_bits :
    c3_r.1 = 0 ∧
    c3_st.disk 2 0 = 255 ∧ c3_r.2.disk 2 0 = 127 ∧
    c3_r.2.disk 2 1 = 252 ∧
    (c3_r.2.inodes 1).size = 0 ∧
    c3_r.2.disk 1 0 = 128 ∧
    (c3_r.2.direntSecs 13 0).inode = 0 := by
  decide

/-- If the slot scan returns slot j, then j is in the scanned range and its
inode field matches. -/
theorem scanSlots_eq_some (buf : Nat → Dirent) (ci : Nat) :
    ∀ fuel d j, scanSlots buf ci d fuel = some j →
      d ≤ j ∧ j < d + fuel ∧ (buf j).inode = (ci : Int) := by
  intro fuel
  induction fuel with
  | zero => intro d j h; simp [scanSlots] at h
  | succ n ih =>
    intro d j h
    rw [scanSlots] at h
    split at h
    · cases h
      exact ⟨Nat.le_refl _, by omega, by assumption⟩
    · obtain ⟨h1, h2, h3⟩ := ih (d + 1) j h
      exact ⟨by omega, by omega, h3⟩

/-- The full-sector loop of remove_inode exits immediately when entered
with found = 0 (the inverted `if (!found) break;`). -/
theorem ri_scan_full_zero (st : FSState) (parent : Inode) (ci : Nat)
    (buf : Nat → Dirent) (dir_sec fuel : Nat) :
    ri_scan_full st parent ci 0 buf dir_sec fuel = (0, buf) := by
  cases fuel <;> simp [ri_scan_full]

/-- remove_inode_core never writes the inode table. -/
theorem remove_inode_core_inodes (st : FSState) (p c : Nat) :
    (remove_inode_core st p c).2.inodes = st.inodes := by
  simp only [remove_inode_core]
  repeat' split
  all_goals rfl

/-- remove_inode never writes the inode table: it only zeroes a directory
entry and clears an inode-bitmap bit. -/
theorem remove_inode_inodes_eq (st : FSState) (ty : Int) (p c : Nat) :
    (remove_inode st ty p c).2.inodes = st.inodes := by
  simp only [remove_inode]
  repeat' split
  all_goals first
    | rfl
    | exact remove_inode_core_inodes st p c

/-- The dirent sector that remove_inode's trailing-sector scan reads:
parent->data[parent->size / DIRENTS_PER_SECTOR]. -/
def trailingDirentSector (st : FSState) (p : Nat) : Nat :=
  (st.inodes p).data (((st.inodes p).size.tdiv (DIRENTS_PER_SECTOR : Int)).toNat)

/-- When remove_inode_core succeeds it has zeroed, in place, one matching
slot of the trailing dirent sector and written that sector back; nothing
else of the dirent store changed. -/
theorem remove_inode_core_found (st : FSState) (p c : Nat) :
    (remove_inode_core st p c).1 = 0 →
    ∃ j, j < (((st.inodes p).size.tmod (DIRENTS_PER_SECTOR : Int)).toNat) ∧
      (st.direntSecs (trailingDirentSector st p) j).inode = (c : Int) ∧
      (remove_inode_core st p c).2.direntSecs =
        upd st.direntSecs (trailingDirentSector st p)
          (zeroSlot (st.direntSecs (trailingDirentSector st p)) j) := by
  simp only [remove_inode_core, ri_scan_full_zero, trailingDirentSector]
  split
  · intro h; simp at h
  · split
    · split
      · intro h; simp at h
      · next hne0 =>
        intro _
        rcases hscan : scanSlots (st.direntSecs ((st.inodes p).data
            (((st.inodes p).size.tdiv (DIRENTS_PER_SECTOR : Int)).toNat))) c 0
            (((st.inodes p).size.tmod (DIRENTS_PER_SECTOR : Int)).toNat) with _ | j
        · rw [hscan] at hne0
          simp at hne0
        · obtain ⟨_, hlt, hmatch⟩ := scanSlots_eq_some _ _ _ _ _ hscan
          refine ⟨j, by omega, hmatch, ?_⟩
          simp
    · intro h; simp at h

/-- Successful remove_inode agrees with remove_inode_core (the early-out
branches all fail). -/
theorem remove_inode_eq_core (st : FSState) (ty : Int) (p c : Nat) :
    (remove_inode st ty p c).1 = 0 →
    remove_inode st ty p c = remove_inode_core st p c := by
  simp only [remove_inode]
  split
  · intro h; simp at h
  · split
    · split
      · intro h; simp at h
      · intro _; rfl
    · split
      · intro h; simp at h
      · intro _; rfl

/-- C4: directory entry-slot counts only grow.  (1) A successful add_inode
increments the parent's size by exactly 1 (the hypothesis that the inode
allocator does not hand out the parent's own inode number holds in every
well-formed state, where a live directory's inode-bitmap bit is set).
(2) remove_inode leaves every inode — in particular every directory's
size — untouched.  (3) When remove_inode succeeds it has merely zeroed the
removed entry's slot in place in its dirent sector. -/
theorem dir_slot_count_invariant :
    (∀ (st : FSState) (ty : Int) (p : Nat) (f : String),
      (bitmap_first_unused st.disk INODE_BITMAP_START_SECTOR INODE_BITMAP_SECTORS
        INODE_BITMAP_SIZE).1 ≠ (p : Int) →
      (add_inode st ty p f).1 = 0 →
      ((add_inode st ty p f).2.inodes p).size = (st.inodes p).size + 1) ∧
    (∀ (st : FSState) (ty : Int) (p c : Nat),
      (remove_inode st ty p c).2.inodes = st.inodes) ∧
    (∀ (st : FSState) (ty : Int) (p c : Nat),
      (remove_inode st ty p c).1 = 0 →
      ∃ j, j < (((st.inodes p).size.tmod (DIRENTS_PER_SECTOR : Int)).toNat) ∧
        (st.direntSecs (trailingDirentSector st p) j).inode = (c : Int) ∧
        (remove_inode st ty p c).2.direntSecs =
          upd st.direntSecs (trailingDirentSector st p)
            (zeroSlot (st.direntSecs (trailingDirentSector st p)) j)) := by
  refine ⟨?_, ?_, ?_⟩
  · intro st ty p f hne
    simp only [add_inode]
    split
    · intro hs; simp at hs
    · next h1 =>
      have hptr : p ≠ (bitmap_first_unused st.disk INODE_BITMAP_START_SECTOR
          INODE_BITMAP_SECTORS INODE_BITMAP_SIZE).1.toNat := by
        intro hEq
        apply hne
        rw [hEq]
        exact (Int.toNat_of_nonneg (by omega)).symm
      rw [show (upd st.inodes (bitmap_first_unused st.disk INODE_BITMAP_START_SECTOR
          INODE_BITMAP_SECTORS INODE_BITMAP_SIZE).1.toNat ⟨0, ty, fun _ => 0⟩) p
          = st.inodes p from by simp [upd, hptr]]
      split
      · intro hs; simp at hs
      · split
        · split
          · intro hs; simp at hs
          · intro _
            simp [add_inode_tail, upd]
        · intro _
          simp [add_inode_tail, upd]
  · intro st ty p c
    exact remove_inode_inodes_eq st ty p c
  · intro st ty p c h
    rw [remove_inode_eq_core st ty p c h]
    exact remove_inode_core_found st p c
      (by rw [remove_inode_eq_core st ty p c h] at h; exact h)

/-- A freshly booted state for the C4 counterexample: every open-file
entry free, the root directory (inode 0) empty. -/
def c4_wst : FSState :=
  ⟨fun _ _ => 0, fun i => if i = 0 then ⟨0, 1, fun _ => 0⟩ else ⟨0, 0, fun _ => 0⟩,
    fun _ _ => ⟨"", 0⟩, fun _ => ⟨0, 0, 0⟩, 0⟩

/-- C4 counterexample: the blanket "a directory's size never decreases
across every operation" fails.  File_Write with size -5 on the unused
descriptor 0 (admitted by the broken descriptor check, which sees the free
entry's inode 0) reads the free entry, whose inode field 0 designates the
root directory, adds -5 to the root's size and writes the inode out: the
root directory's entry-slot count drops from 0 to -5. -/
theorem c4_negative_write_shrinks_root :
    (c4_wst.inodes 0).size = 0 ∧ (c4_wst.inodes 0).type = 1 ∧
    ((File_Write c4_wst 0 (fun _ => 0) (-5)).2.inodes 0).size = -5 := by
  decide

/-- State for the dir_slot_count_invariant witness: a freshly formatted
volume (root inode 0 empty, inode-bitmap bit 0 set, sector-bitmap bits
0..12 set). -/
def c4_st : FSState :=
  ⟨fun s b =>
      if s = 2 then (if b = 0 then 255 else if b = 1 then 248 else 0)
      else if s = 1 then (if b = 0 then 128 else 0) else 0,
    fun i => if i = 0 then ⟨0, 1, fun _ => 0⟩ else ⟨0, 0, fun _ => 0⟩,
    fun _ _ => ⟨"", 0⟩, fun _ => ⟨0, 0, 0⟩, 0⟩

/-- Creation of /a in the fresh c4_st volume, used by the witness. -/
def c4_add : Int × FSState := add_inode c4_st 0 0 "a"

/-- Witness for dir_slot_count_invariant: creating /a in the fresh state
succeeds (the allocator hands out inode 1, not the parent 0) and bumps the
root's slot count from 0 to 1; and remove_inode on the resulting state
leaves the inode table unchanged. -/
theorem dir_slot_count_invariant_witness :
    ((bitmap_first_unused c4_st.disk INODE_BITMAP_START_SECTOR INODE_BITMAP_SECTORS
        INODE_BITMAP_SIZE).1 ≠ ((0 : Nat) : Int) ∧ c4_add.1 = 0) ∧
    ((c4_add.2.inodes 0).size = (c4_st.inodes 0).size + 1 ∧
      (remove_inode c4_add.2 0 0 1).2.inodes = c4_add.2.inodes) :=
  ⟨⟨by decide, by decide⟩,
    dir_slot_count_invariant.1 c4_st 0 0 "a" (by decide) (by decide),
    dir_slot_count_invariant.2.1 c4_add.2 0 0 1⟩

/-- Disk of a freshly formatted volume after creating file /a (inode 1,
root dirent sector 13) and opening it: sector 1 is the inode bitmap (inodes
0 and 1 in use), sector 2 the sector bitmap (sectors 0..13 in use:
0xff 0xfc), data sectors zero. -/
def c1_disk : Disk := fun s b =>
  if s = 2 then (if b = 0 then 255 else if b = 1 then 252 else 0)
  else if s = 1 then (if b = 0 then 192 else 0) else 0

/-- Inode table for the C1 scenario: inode 0 the root directory (one entry,
dirent sector 13), inode 1 the fresh empty file /a. -/
def c1_inodes : Nat → Inode := fun i =>
  if i = 0 then ⟨1, 1, fun j => if j = 0 then 13 else 0⟩
  else ⟨0, 0, fun _ => 0⟩

/-- Directory-entry sectors for the C1 scenario: sector 13 slot 0 is /a. -/
def c1_dirents : Nat → Nat → Dirent := fun s j =>
  if s = 13 ∧ j = 0 then ⟨"a", 1⟩ else ⟨"", 0⟩

/-- Open-file table for the C1 scenario: /a open at descriptor 0, cursor 0. -/
def c1_open : Nat → OpenFile := fun i =>
  if i = 0 then ⟨1, 0, 0⟩ else ⟨0, 0, 0⟩

/-- The C1 scenario state. -/
def c1_st : FSState := ⟨c1_disk, c1_inodes, c1_dirents, c1_open, 0⟩

/-- The 513 bytes written in the C1 scenario: byte 512 is 1, all others 0. -/
def c1_bufW : Nat → Nat := fun i => if i = 512 then 1 else 0

/-- File_Write of 513 bytes at cursor 0. -/
def c1_w : Int × FSState := File_Write c1_st 0 c1_bufW 513

/-- File_Seek back to offset 0. -/
def c1_s : Int × FSState := File_Seek c1_w.2 0 0

/-- File_Read of 513 bytes into an all-zero caller buffer. -/
def c1_r : Int × FSState × (Nat → Nat) := File_Read c1_s.2 0 (fun _ => 0) 513

/-- C1: writing k = 513 bytes to a fresh file at cursor 0, seeking to 0 and
reading 513 bytes must deliver the written bytes.  The write and the seek
succeed and put the right bytes on disk (sector 14 holds bytes 0..511,
sector 15 byte 0 holds byte 512), and File_Read reports 513 bytes read, but
its copy loop writes every sector's chunk to offset 0 of the caller's
buffer (memcpy(buffer, ...) instead of buffer + out_pos), so the buffer's
byte 0 ends up holding the 513th written byte (1, not the written 0) and
byte 512 is never filled (0, not the written 1). -/
theorem c1_read_write_roundtrip_bug :
    c1_w.1 = 513 ∧ c1_s.1 = 0 ∧ c1_r.1 = 513 ∧
    c1_r.2.2 0 = 1 ∧ c1_bufW 0 = 0 ∧
    c1_r.2.2 512 = 0 ∧ c1_bufW 512 = 1 := by
  decide

/-- The C7 scenario: a freshly booted state whose open-file table is all
free (every entry's inode is 0); the disk and inode table are those of a
fresh format (only the root exists; their details are irrelevant here). -/
def c7_st : FSState :=
  ⟨fun _ _ => 0, fun i => if i = 0 then ⟨0, 1, fun _ => 0⟩ else ⟨0, 0, fun _ => 0⟩,
    fun _ _ => ⟨"", 0⟩, fun _ => ⟨0, 0, 0⟩, 0⟩

/-- C7: with every open-file-table entry free, descriptor 0 is not the
index of an open entry, so File_Read and File_Write must return -1 with
osErrno = E_BAD_FD.  Instead both pass is_file_open the descriptor, which
scans the table for an entry whose *inode* equals 0 — every free entry
matches — so File_Read returns 0 (leaving osErrno untouched) and
File_Write returns 1, operating on the free entry. -/
theorem c7_bad_fd_check_bug :
    (File_Read c7_st 0 (fun _ => 0) 1).1 = 0 ∧
    (File_Read c7_st 0 (fun _ => 0) 1).2.1.osErrno = 0 ∧
    (File_Write c7_st 0 (fun _ => 5) 1).1 = 1 := by
  decide

/-- C10: for a descriptor that is the index of an open entry, File_Close
succeeds, frees exactly that entry (only its inode field is zeroed — the
cached size is not flushed anywhere), and leaves every other open-file
entry, the disk, the inode table, the directory sectors and osErrno
unchanged. -/
theorem file_close_frame (st : FSState) (fd : Nat)
    (hfd : fd < MAX_OPEN_FILES) (hopen : 0 < (st.open_files fd).inode) :
    (File_Close st fd).1 = 0 ∧
    (File_Close st fd).2.open_files fd =
      { st.open_files fd with inode := 0 } ∧
    (∀ g, g ≠ fd → (File_Close st fd).2.open_files g = st.open_files g) ∧
    (File_Close st fd).2.disk = st.disk ∧
    (File_Close st fd).2.inodes = st.inodes ∧
    (File_Close st fd).2.direntSecs = st.direntSecs ∧
    (File_Close st fd).2.osErrno = st.osErrno := by
  have h1 : ¬ fd > MAX_OPEN_FILES := by omega
  have h2 : ¬ (st.open_files fd).inode ≤ 0 := by omega
  unfold File_Close
  rw [if_neg h1, if_neg h2]
  refine ⟨rfl, ?_, ?_, rfl, rfl, rfl, rfl⟩
  · simp [upd]
  · intro g hg
    simp [upd, hg]

/-- Concrete open-file table with descriptor 0 open on inode 3. -/
def c10_st : FSState :=
  ⟨fun _ _ => 0, fun _ => ⟨0, 0, fun _ => 0⟩, fun _ _ => ⟨"", 0⟩,
    fun i => if i = 0 then ⟨3, 40, 7⟩ else ⟨0, 0, 0⟩, 0⟩

/-- Witness for file_close_frame at descriptor 0 of c10_st. -/
theorem file_close_frame_witness :
    (0 < MAX_OPEN_FILES ∧ 0 < (c10_st.open_files 0).inode) ∧
    (File_Close c10_st 0).1 = 0 :=
  ⟨⟨by decide, by decide⟩, (file_close_frame c10_st 0 (by decide) (by decide)).1⟩

/-- memcpy over dirent-slot buffers (Dir_Read copies whole dirent records;
the byte offsets of the C memcpys are all multiples of sizeof(dirent_t), so
the copy is modelled at slot granularity). -/
def memcpyD (dst : Nat → Dirent) (doff : Nat) (src : Nat → Dirent) (soff n : Nat) :
    Nat → Dirent :=
  fun i => if doff ≤ i ∧ i < doff + n then src (soff + (i - doff)) else dst i

/-- Dir_Read's full-sector copy loop: for i below size / DIRENTS_PER_SECTOR,
copy the DIRENTS_PER_SECTOR slots of dirent sector child->data[i] to the
output position i * DIRENTS_PER_SECTOR. -/
def dr_copy (st : FSState) (child : Inode) : (Nat → Dirent) → Nat → Nat → Nat → Dirent
  | buf, _, 0 => buf
  | buf, i, fuel + 1 =>
    dr_copy st
      child (memcpyD buf (i * DIRENTS_PER_SECTOR) (st.direntSecs (child.data i)) 0
        DIRENTS_PER_SECTOR)
      (i + 1) fuel

/-- The C conversion of an int operand to size_t (64-bit, two's
complement): value modulo 2^64. -/
def usize64 (x : Int) : Nat := (x % 18446744073709551616).toNat

/-- The output buffer Dir_Read builds: all full dirent sectors, then the
`size % DIRENTS_PER_SECTOR` slots of the partially filled trailing sector. -/
def dr_buf2 (st : FSState) (child : Inode) (buf : Nat → Dirent) : Nat → Dirent :=
  let buf1 := dr_copy st child buf 0 (child.size.tdiv (DIRENTS_PER_SECTOR : Int)).toNat
  let left := child.size.tmod (DIRENTS_PER_SECTOR : Int)
  if left > 0 then
    memcpyD buf1 ((child.size.tdiv (DIRENTS_PER_SECTOR : Int)).toNat * DIRENTS_PER_SECTOR)
      (st.direntSecs (child.data (child.size.tdiv (DIRENTS_PER_SECTOR : Int)).toNat)) 0
      left.toNat
  else buf1

/-- LibFS.c Dir_Read after follow_path succeeded (the path-resolution
prefix and its E_NO_SUCH_DIR case are not embedded; the claim's premise
"path resolving to an existing directory" supplies child_node): fail with
E_BUFFER_TOO_SMALL when `size < child->size * sizeof(dirent_t)` — a C
comparison between an int and a size_t, so both operands are converted to
the unsigned 64-bit type — otherwise copy out every entry slot and return
the slot count. -/
def Dir_Read_body (st : FSState) (child_node : Nat) (buf : Nat → Dirent) (size : Int) :
    Int × FSState × (Nat → Dirent) :=
  let child := st.inodes child_node
  if usize64 size < usize64 child.size * SIZEOF_DIRENT % 18446744073709551616 then
    (-1, setErr st E_BUFFER_TOO_SMALL, buf)
  else
    (child.size, st, dr_buf2 st child buf)

/-- Pointwise description of the full-sector copy loop. -/
theorem dr_copy_spec (st : FSState) (child : Inode) :
    ∀ fuel i buf m,
      dr_copy st child buf i fuel m =
        if i * DIRENTS_PER_SECTOR ≤ m ∧ m < (i + fuel) * DIRENTS_PER_SECTOR then
          st.direntSecs (child.data (m / DIRENTS_PER_SECTOR)) (m % DIRENTS_PER_SECTOR)
        else buf m := by
  have hD : DIRENTS_PER_SECTOR = 25 := rfl
  intro fuel
  induction fuel with
  | zero =>
    intro i buf m
    rw [dr_copy, if_neg (by rw [hD]; omega)]
  | succ fu ih =>
    intro i buf m
    rw [dr_copy, ih]
    by_cases h1 : (i + 1) * DIRENTS_PER_SECTOR ≤ m ∧ m < (i + 1 + fu) * DIRENTS_PER_SECTOR
    · rw [if_pos h1, if_pos (by rw [hD] at h1 ⊢; omega)]
    · rw [if_neg h1]
      simp only [memcpyD]
      by_cases h2 : i * DIRENTS_PER_SECTOR ≤ m ∧ m < i * DIRENTS_PER_SECTOR + DIRENTS_PER_SECTOR
      · rw [if_pos h2, if_pos (by rw [hD] at h2 ⊢; omega)]
        have hd : m / DIRENTS_PER_SECTOR = i := by rw [hD] at h2 ⊢; omega
        have hm : 0 + (m - i * DIRENTS_PER_SECTOR) = m % DIRENTS_PER_SECTOR := by
          rw [hD] at h2 ⊢; omega
        rw [hd, hm]
      · rw [if_neg h2, if_neg (by rw [hD] at h1 h2 ⊢; omega)]

/-- Pointwise description of Dir_Read's output buffer: slots below the
entry count verbatim from the dirent sectors in on-disk order, everything
else untouched. -/
theorem dr_buf2_spec (st : FSState) (child : Inode) (buf : Nat → Dirent) (n : Nat)
    (hsz : child.size = (n : Int)) (m : Nat) :
    dr_buf2 st child buf m =
      if m < n then
        st.direntSecs (child.data (m / DIRENTS_PER_SECTOR)) (m % DIRENTS_PER_SECTOR)
      else buf m := by
  have hD : DIRENTS_PER_SECTOR = 25 := rfl
  simp only [dr_buf2, hsz]
  have htd : (((n : Int)).tdiv ((DIRENTS_PER_SECTOR : Nat) : Int)).toNat
      = n / DIRENTS_PER_SECTOR := rfl
  have htm2 : ((n : Int)).tmod ((DIRENTS_PER_SECTOR : Nat) : Int)
      = ((n % DIRENTS_PER_SECTOR : Nat) : Int) := rfl
  rw [htd, htm2]
  by_cases hmod : n % DIRENTS_PER_SECTOR = 0
  · rw [if_neg (by rw [hmod]; simp)]
    rw [dr_copy_spec]
    by_cases hm : m < n
    · rw [if_pos (by rw [hD] at hmod ⊢; omega), if_pos hm]
    · rw [if_neg (by rw [hD] at hmod ⊢; omega), if_neg hm]
  · rw [if_pos (by rw [hD] at hmod ⊢; omega)]
    simp only [memcpyD, Int.toNat_natCast]
    by_cases h2 : (n / DIRENTS_PER_SECTOR) * DIRENTS_PER_SECTOR ≤ m ∧
        m < (n / DIRENTS_PER_SECTOR) * DIRENTS_PER_SECTOR + n % DIRENTS_PER_SECTOR
    · rw [if_pos h2, if_pos (by rw [hD] at h2; omega)]
      have hd : m / DIRENTS_PER_SECTOR = n / DIRENTS_PER_SECTOR := by
        rw [hD] at h2 ⊢; omega
      have hm : 0 + (m - (n / DIRENTS_PER_SECTOR) * DIRENTS_PER_SECTOR)
          = m % DIRENTS_PER_SECTOR := by rw [hD] at h2 ⊢; omega
      rw [hm, hd]
    · rw [if_neg h2]
      rw [dr_copy_spec]
      by_cases hm : m < n
      · rw [if_pos (by rw [hD] at h2 ⊢; omega), if_pos hm]
      · rw [if_neg (by rw [hD] at h2 ⊢; omega), if_neg hm]

/-- C8 (amended): for a directory with entry-slot count n and a
*nonnegative* capacity c within the int range, Dir_Read fails with
BufferTooSmall exactly when c < n * 20, and otherwise returns n and fills
the buffer with all n slots verbatim — tombstones included — in on-disk
order, touching nothing beyond slot n.  (For negative c the C comparison
converts c to size_t, so the BufferTooSmall check never fires; see the
counterexample.) -/
theorem dir_read_body_spec (st : FSState) (cn : Nat) (buf : Nat → Dirent)
    (c : Int) (n : Nat) (hn : (st.inodes cn).size = (n : Int))
    (hc : 0 ≤ c) (hcr : c < 2147483648) (hnr : n * SIZEOF_DIRENT < 2147483648) :
    (c < (n : Int) * SIZEOF_DIRENT →
      (Dir_Read_body st cn buf c).1 = -1 ∧
      (Dir_Read_body st cn buf c).2.1.osErrno = E_BUFFER_TOO_SMALL ∧
      (Dir_Read_body st cn buf c).2.2 = buf) ∧
    ((n : Int) * SIZEOF_DIRENT ≤ c →
      (Dir_Read_body st cn buf c).1 = (n : Int) ∧
      (Dir_Read_body st cn buf c).2.1 = st ∧
      (∀ m, m < n → (Dir_Read_body st cn buf c).2.2 m =
        st.direntSecs ((st.inodes cn).data (m / DIRENTS_PER_SECTOR))
          (m % DIRENTS_PER_SECTOR)) ∧
      (∀ m, n ≤ m → (Dir_Read_body st cn buf c).2.2 m = buf m)) := by
  have hS : SIZEOF_DIRENT = 20 := rfl
  have hnr20 : n * 20 < 2147483648 := by rw [hS] at hnr; exact hnr
  have hguard : (usize64 c < usize64 (st.inodes cn).size * SIZEOF_DIRENT % 18446744073709551616) ↔
      c < (n : Int) * SIZEOF_DIRENT := by
    rw [hn, hS]
    unfold usize64
    rw [Int.emod_eq_of_lt hc (by omega),
      Int.emod_eq_of_lt (Int.natCast_nonneg n) (by omega),
      Int.toNat_natCast, Nat.mod_eq_of_lt (by omega)]
    omega
  constructor
  · intro hlt
    simp only [Dir_Read_body]
    rw [if_pos (hguard.mpr hlt)]
    exact ⟨rfl, rfl, rfl⟩
  · intro hge
    simp only [Dir_Read_body]
    rw [if_neg (by rw [hguard]; omega)]
    refine ⟨by simp [hn], rfl, ?_, ?_⟩
    · intro m hm
      show dr_buf2 st (st.inodes cn) buf m = _
      rw [dr_buf2_spec st (st.inodes cn) buf n hn m, if_pos hm]
    · intro m hm
      show dr_buf2 st (st.inodes cn) buf m = _
      rw [dr_buf2_spec st (st.inodes cn) buf n hn m, if_neg (by omega)]

/-- The C8 scenario: a directory (inode 0) with a single entry slot,
holding /a with inode 7 in dirent sector 13. -/
def c8_st : FSState :=
  ⟨fun _ _ => 0,
    fun i =>
      if i = 0 then ⟨1, 1, fun j => if j = 0 then 13 else 0⟩ else ⟨0, 0, fun _ => 0⟩,
    fun s j => if s = 13 ∧ j = 0 then ⟨"a", 7⟩ else ⟨"", 0⟩,
    fun _ => ⟨0, 0, 0⟩, 0⟩

/-- C8 counterexample: with entry count n = 1 and capacity c = -1 the claim
says c < n * 20 forces BufferTooSmall; the code converts c to size_t
(2^64 - 1) in the comparison, does not fail, returns 1 and leaves osErrno
untouched. -/
theorem c8_negative_capacity_counterexample :
    ((-1 : Int) < ((1 : Nat) : Int) * SIZEOF_DIRENT) ∧
    (Dir_Read_body c8_st 0 (fun _ => ⟨"", 0⟩) (-1)).1 = 1 ∧
    (Dir_Read_body c8_st 0 (fun _ => ⟨"", 0⟩) (-1)).2.1.osErrno = 0 := by
  refine ⟨by decide, ?_, ?_⟩ <;>
    · rw [Dir_Read_body, if_neg (by decide)]
      decide

/-- Witness for dir_read_body_spec: reading the one-slot directory with
capacity 20 succeeds, returns 1 and delivers the slot. -/
theorem dir_read_body_spec_witness :
    ((c8_st.inodes 0).size = ((1 : Nat) : Int) ∧ (0 : Int) ≤ 20 ∧
      ((1 : Nat) : Int) * SIZEOF_DIRENT ≤ 20) ∧
    (Dir_Read_body c8_st 0 (fun _ => ⟨"", 0⟩) 20).1 = 1 :=
  ⟨⟨by decide, by decide, by decide⟩,
    ((dir_read_body_spec c8_st 0 (fun _ => ⟨"", 0⟩) 20 1 (by decide) (by decide)
      (by decide) (by decide)).2 (by decide)).1⟩

/-- A byte below 256 whose eight mask bits are all set is 0xff. -/
theorem byte_all_ones :
    ∀ b, b < 256 → (∀ k, k < 8 → b &&& bits_fu k ≠ 0) → b = 255 := by
  decide

/-- A byte below 256 with some mask bit clear is below 0xff. -/
theorem byte_lt_255 :
    ∀ b, b < 256 → ∀ k, k < 8 → b &&& bits_fu k = 0 → b < 255 := by
  decide

/-- The inner loop of bitmap_first_unused finds the first clear mask bit. -/
theorem fzByte_first :
    ∀ b, b < 256 → ∀ k0, k0 < 8 → (∀ k, k < k0 → b &&& bits_fu k ≠ 0) →
      b &&& bits_fu k0 = 0 → fzByte b 0 8 = some k0 := by
  decide

/-- Setting mask bit k makes it nonzero. -/
theorem or_bit_set :
    ∀ b, b < 256 → ∀ k, k < 8 → (b ||| bits_fu k) &&& bits_fu k ≠ 0 := by
  decide

/-- Setting mask bit k leaves every other mask bit unchanged. -/
theorem or_bit_frame :
    ∀ b, b < 256 → ∀ k, k < 8 → ∀ k2, k2 < 8 → k2 ≠ k →
      ((b ||| bits_fu k) &&& bits_fu k2 = 0 ↔ b &&& bits_fu k2 = 0) := by
  decide

/-- Two naturals that vanish together have equal zero-tests. -/
theorem bne_zero_congr (x y : Nat) (h : x = 0 ↔ y = 0) : (x != 0) = (y != 0) := by
  by_cases hx : x = 0
  · have hy := h.mp hx
    subst hx
    subst hy
    rfl
  · have hy : ¬ y = 0 := fun hy0 => hx (h.mpr hy0)
    have h1 : (x != 0) = true := by simpa [bne_iff_ne] using hx
    have h2 : (y != 0) = true := by simpa [bne_iff_ne] using hy
    rw [h1, h2]

/-- Bit position (t * SECTOR_SIZE + j) * 8 + k of the bitmap is mask bit k
of byte j of sector start + t. -/
theorem bmBit_decompose (d : Disk) (start t j k : Nat)
    (hj : j < SECTOR_SIZE) (hk : k < 8) :
    bmBit d start ((t * SECTOR_SIZE + j) * 8 + k) = (d (start + t) j &&& bits_fu k != 0) := by
  have hS : SECTOR_SIZE = 512 := rfl
  unfold bmBit
  rw [hS] at hj ⊢
  have h1 : ((t * 512 + j) * 8 + k) / (512 * 8) = t := by omega
  have h2 : ((t * 512 + j) * 8 + k) % (512 * 8) / 8 = j := by omega
  have h3 : ((t * 512 + j) * 8 + k) % 8 = k := by omega
  rw [h1, h2, h3]

/-- The byte scan of a sector of 0xff bytes finds nothing. -/
theorem fzSector_none (s : Nat → Nat) :
    ∀ fuel j, (∀ t, j ≤ t → t < j + fuel → s t = 255) → fzSector s j fuel = none := by
  intro fuel
  induction fuel with
  | zero => intro j _; rw [fzSector]
  | succ fu ih =>
    intro j h
    rw [fzSector, h j (Nat.le_refl j) (by omega), if_neg (by omega)]
    exact ih (j + 1) (fun t ht1 ht2 => h t (by omega) (by omega))

/-- The byte scan finds (j0, k0) when all bytes before j0 are 0xff, byte j0
is below 0xff and its first clear mask bit is k0. -/
theorem fzSector_find (s : Nat → Nat) (j0 k0 : Nat) (hj0 : s j0 < 255)
    (hfz : fzByte (s j0) 0 8 = some k0) :
    ∀ fuel j, j ≤ j0 → j0 < j + fuel → (∀ t, j ≤ t → t < j0 → s t = 255) →
      fzSector s j fuel = some (j0, k0) := by
  intro fuel
  induction fuel with
  | zero => intro j h1 h2 _; omega
  | succ fu ih =>
    intro j h1 h2 hall
    by_cases hj : j = j0
    · subst hj
      rw [fzSector, if_pos hj0, hfz]
    · rw [fzSector, hall j (Nat.le_refl j) (by omega), if_neg (by omega)]
      exact ih (j + 1) (by omega) (by omega) (fun t ht1 ht2 => hall t (by omega) ht2)

/-- The sector loop's behaviour when sector i0 is the first with a free
bit, found at byte j0, mask bit k0: the bit is set, the sector written
back, and the position compared against nbits. -/
theorem bfu_go_find (d : Disk) (start nbits : Nat) (i0 j0 k0 : Nat)
    (hfz : fzSector (d (start + i0)) 0 SECTOR_SIZE = some (j0, k0)) :
    ∀ fuel i, i ≤ i0 → i0 < i + fuel →
      (∀ t, i ≤ t → t < i0 → fzSector (d (start + t)) 0 SECTOR_SIZE = none) →
      bfu_go d start nbits i fuel =
        ((if (i0 * SECTOR_SIZE + j0) * 8 + k0 < nbits
            then (((i0 * SECTOR_SIZE + j0) * 8 + k0 : Nat) : Int) else -1),
          diskWrite d (start + i0)
            (fun m => if m = j0 then d (start + i0) j0 ||| bits_fu k0
              else d (start + i0) m)) := by
  intro fuel
  induction fuel with
  | zero => intro i h1 h2 _; omega
  | succ fu ih =>
    intro i h1 h2 hall
    by_cases hi : i = i0
    · subst hi
      rw [bfu_go, hfz]
    · rw [bfu_go, hall i (Nat.le_refl i) (by omega)]
      exact ih (i + 1) (by omega) (by omega) (fun t ht1 ht2 => hall t (by omega) ht2)

/-- Any nonnegative position the sector loop returns is below nbits. -/
theorem bfu_go_pos (d : Disk) (start nbits : Nat) :
    ∀ fuel i (p : Nat), (bfu_go d start nbits i fuel).1 = (p : Int) → p < nbits := by
  intro fuel
  induction fuel with
  | zero =>
    intro i p h
    rw [bfu_go] at h
    simp at h
  | succ fu ih =>
    intro i p h
    rw [bfu_go] at h
    rcases hf : fzSector (d (start + i)) 0 SECTOR_SIZE with _ | ⟨j, k⟩
    · rw [hf] at h
      exact ih (i + 1) p h
    · rw [hf] at h
      simp only at h
      split at h
      · next hlt =>
        simp at h
        omega
      · simp at h

/-- C5: let pos be the physical position of the first clear bit of the
bitmap in sectors [start, start + num) (bit pos clear, every earlier bit
set, bytes valid).  If nbits <= pos, bitmap_first_unused still sets that
bit (persisting the containing sector: the result disk differs from the
input in exactly bit pos) and returns NotFound (-1); and in general a
position is returned as a successful allocation only when it is strictly
below nbits. -/
theorem bitmap_first_unused_capacity :
    (∀ (d : Disk) (start num nbits pos : Nat),
      (∀ i, i < num → ∀ j, j < SECTOR_SIZE → d (start + i) j < 256) →
      pos < num * (SECTOR_SIZE * 8) →
      bmBit d start pos = false →
      (∀ q, q < pos → bmBit d start q = true) →
      nbits ≤ pos →
      (bitmap_first_unused d start num nbits).1 = -1 ∧
      bmBit (bitmap_first_unused d start num nbits).2 start pos = true ∧
      (∀ q, q ≠ pos → bmBit (bitmap_first_unused d start num nbits).2 start q =
        bmBit d start q)) ∧
    (∀ (d : Disk) (start num nbits : Nat) (p : Nat),
      (bitmap_first_unused d start num nbits).1 = (p : Int) → p < nbits) := by
  constructor
  · intro d start num nbits pos hbytes hrange hzero hone hcap
    have hS : SECTOR_SIZE = 512 := rfl
    rw [show SECTOR_SIZE * 8 = 4096 from rfl] at hrange
    obtain ⟨i0, j0, k0, hj0, hk0, hpos⟩ :
        ∃ i0 j0 k0, j0 < SECTOR_SIZE ∧ k0 < 8 ∧
          pos = (i0 * SECTOR_SIZE + j0) * 8 + k0 :=
      ⟨pos / 4096, pos % 4096 / 8, pos % 8, by rw [hS]; omega, by omega,
        by rw [hS]; omega⟩
    have hi0 : i0 < num := by
      rw [hS] at hpos hj0
      omega
    have hfull : ∀ t j, j < SECTOR_SIZE → (t < i0 ∨ (t = i0 ∧ j < j0)) →
        d (start + t) j = 255 := by
      intro t j hj hcond
      have htn : t < num := by omega
      apply byte_all_ones _ (hbytes t htn j hj)
      intro k hk
      have hq := hone ((t * SECTOR_SIZE + j) * 8 + k)
        (by rw [hS]; rw [hS] at hpos hj hj0; omega)
      rw [bmBit_decompose d start t j k hj hk] at hq
      simpa [bne_iff_ne] using hq
    have hbit0 : d (start + i0) j0 &&& bits_fu k0 = 0 := by
      rw [hpos, bmBit_decompose d start i0 j0 k0 hj0 hk0] at hzero
      simpa using hzero
    have hlow : ∀ k, k < k0 → d (start + i0) j0 &&& bits_fu k ≠ 0 := by
      intro k hk
      have hq := hone ((i0 * SECTOR_SIZE + j0) * 8 + k)
        (by rw [hS]; rw [hS] at hpos; omega)
      rw [bmBit_decompose d start i0 j0 k hj0 (by omega)] at hq
      simpa [bne_iff_ne] using hq
    have hb256 : d (start + i0) j0 < 256 := hbytes i0 hi0 j0 hj0
    have hfzb : fzByte (d (start + i0) j0) 0 8 = some k0 :=
      fzByte_first _ hb256 k0 hk0 hlow hbit0
    have hlt255 : d (start + i0) j0 < 255 := byte_lt_255 _ hb256 k0 hk0 hbit0
    have hfzs : fzSector (d (start + i0)) 0 SECTOR_SIZE = some (j0, k0) :=
      fzSector_find _ _ _ hlt255 hfzb SECTOR_SIZE 0 (Nat.zero_le _) (by omega)
        (fun t ht1 ht2 =>
          hfull i0 t (by rw [hS]; rw [hS] at hj0; omega) (Or.inr ⟨rfl, ht2⟩))
    have hnone : ∀ t, 0 ≤ t → t < i0 → fzSector (d (start + t)) 0 SECTOR_SIZE = none := by
      intro t _ ht
      apply fzSector_none
      intro u hu1 hu2
      exact hfull t u (by omega) (Or.inl ht)
    have hrun : bitmap_first_unused d start num nbits =
        ((if (i0 * SECTOR_SIZE + j0) * 8 + k0 < nbits
            then (((i0 * SECTOR_SIZE + j0) * 8 + k0 : Nat) : Int) else -1),
          diskWrite d (start + i0)
            (fun m => if m = j0 then d (start + i0) j0 ||| bits_fu k0
              else d (start + i0) m)) :=
      bfu_go_find d start nbits i0 j0 k0 hfzs num 0 (Nat.zero_le _) (by omega)
        (fun t h1 h2 => hnone t h1 h2)
    have hwrite : ∀ t j,
        (diskWrite d (start + i0)
          (fun m => if m = j0 then d (start + i0) j0 ||| bits_fu k0
            else d (start + i0) m)) (start + t) j =
        if t = i0 ∧ j = j0 then d (start + i0) j0 ||| bits_fu k0
        else d (start + t) j := by
      intro t j
      unfold diskWrite
      by_cases ht : t = i0
      · subst ht
        rw [if_pos rfl]
        by_cases hjj : j = j0
        · subst hjj
          rw [if_pos rfl, if_pos ⟨rfl, rfl⟩]
        · rw [if_neg hjj, if_neg (by tauto)]
      · rw [if_neg (by omega), if_neg (by tauto)]
    refine ⟨?_, ?_, ?_⟩
    · rw [hrun]
      rw [if_neg (by rw [hS]; rw [hS] at hpos; omega)]
    · rw [hrun, hpos, bmBit_decompose _ start i0 j0 k0 hj0 hk0]
      dsimp only
      rw [hwrite i0 j0, if_pos ⟨rfl, rfl⟩]
      simpa [bne_iff_ne] using or_bit_set _ hb256 k0 hk0
    · intro q hq
      obtain ⟨t, j, k, hjS, hk8, hqe⟩ :
          ∃ t j k, j < SECTOR_SIZE ∧ k < 8 ∧ q = (t * SECTOR_SIZE + j) * 8 + k :=
        ⟨q / 4096, q % 4096 / 8, q % 8, by rw [hS]; omega, by omega,
          by rw [hS]; omega⟩
      rw [hrun, hqe, bmBit_decompose _ start t j k hjS hk8,
        bmBit_decompose _ start t j k hjS hk8]
      dsimp only
      rw [hwrite t j]
      by_cases hc : t = i0 ∧ j = j0
      · rw [if_pos hc]
        obtain ⟨ht, hj⟩ := hc
        have hkk : k ≠ k0 := by
          intro hEq
          apply hq
          rw [hqe, hpos, ht, hj, hEq]
        rw [ht, hj]
        exact bne_zero_congr _ _ (or_bit_frame _ hb256 k0 hk0 k hk8 hkk)
      · rw [if_neg hc]
  · intro d start num nbits p h
    exact bfu_go_pos d start nbits num 0 p h

/-- Disk for the bitmap_first_unused witness: sector 0 is all 0xff except
byte 1 = 0x7f, so the first clear bit is at position 8. -/
def c5_d : Disk := fun s b => if s = 0 ∧ b = 1 then 127 else 255

/-- Witness for bitmap_first_unused_capacity: with capacity nbits = 5 and
the first free physical bit at position 8, the call returns -1. -/
theorem bitmap_first_unused_capacity_witness :
    ((∀ i, i < 1 → ∀ j, j < SECTOR_SIZE → c5_d (0 + i) j < 256) ∧
      (8 : Nat) < 1 * (SECTOR_SIZE * 8) ∧ bmBit c5_d 0 8 = false ∧
      (∀ q, q < 8 → bmBit c5_d 0 q = true) ∧ 5 ≤ 8) ∧
    (bitmap_first_unused c5_d 0 1 5).1 = -1 :=
  ⟨⟨by decide, by decide, by decide, by decide, by decide⟩,
    (bitmap_first_unused_capacity.1 c5_d 0 1 5 8 (by decide) (by decide)
      (by decide) (by decide) (by decide)).1⟩

end LibFS
